import Mathlib

/-!
Verification of `src/attendance_whatsapp.py` (MGIT attendance WhatsApp bot).

This file gives a shallow embedding of the pure computational core of the
script — the HTML attendance parser `parse_attendance_html`, the endpoint
resolution and login-failure detection inside `get_attendance`, and the
send/suppress decision in `main` — and proves or refutes the frozen claims
about it.

Modelling conventions:
* Python strings are modelled as `List Char` (`Str`).  Python's `str`
  operations (`lower`, `strip`, `split`, `startswith`, `in`, slicing) become
  the corresponding list operations.
* Parsed HTML (what BeautifulSoup produces from a response body) is modelled
  as a tree `Node` of elements and text nodes.  An HTTP response carries both
  its raw text (`raw`) and its parsed tree (`dom`); the code only ever
  applies string search to the former and tag navigation to the latter.
* Python floats are modelled as `ℚ`.  All numeric tokens the script parses
  are short decimal literals, for which `float` is injective and order- and
  sign-faithful, so `ℚ` is an adequate model.  The f-string rendering
  `f"{x}"` of a float is modelled by `pctRepr`, an injective rendering that,
  like Python's `repr` of a non-negative float, never contains `'-'`; these
  are the only two properties of the rendering the code's behaviour depends
  on (the dedup key is `f"{subject}-{percentage}"`).
* The network is modelled by an environment `Env` holding the responses that
  the portal returns to the requests the script makes, in order.
* Exceptions are modelled with `Except`: `parse_attendance_html` can raise
  (`float(pct_match.group(1))` with `pct_match = None`), and the enclosing
  broad `except` of `get_attendance` maps the error to the generic
  `"❌ Error: ..."` message.
-/

set_option maxHeartbeats 1000000
set_option maxRecDepth 10000

deriving instance DecidableEq for Except

namespace AttendanceBot

/-- Python strings, modelled as lists of characters. -/
abbrev Str := List Char

/-- Python regex `\s` / `str.strip()` whitespace (the ASCII part, which is all
the script's data ever contains). -/
def isSpaceChar (c : Char) : Bool :=
  c = ' ' || c = '\t' || c = '\n' || c = '\r' || c = '\x0b' || c = '\x0c'

/-- Python regex `\d` (ASCII digits). -/
def isDigitChar (c : Char) : Bool :=
  '0' ≤ c && c ≤ '9'

/-- Python regex `\w` word characters (ASCII part): letters, digits, `_`. -/
def isWordChar (c : Char) : Bool :=
  c.isAlpha || isDigitChar c || c = '_'

/-- `str.lower()` (ASCII case folding, which covers all vocabulary the code
compares case-insensitively). -/
def lowerStr (s : Str) : Str :=
  s.map Char.toLower

/-- `str.strip()`: remove leading and trailing whitespace. -/
def trimStr (s : Str) : Str :=
  ((s.dropWhile isSpaceChar).reverse.dropWhile isSpaceChar).reverse

/-- Python `needle in haystack` substring test. -/
def containsSub (haystack needle : Str) : Bool :=
  (haystack.tails).any (fun t => needle.isPrefixOf t)

mutual

/-- Number of fields of Python `str.split()` (split on whitespace runs,
discarding empty fields). -/
def splitWsCount : Str → Nat
  | [] => 0
  | c :: rest =>
      if isSpaceChar c then splitWsCount rest
      else 1 + splitWsCountIn rest

/-- Count the remaining fields while inside a field. -/
def splitWsCountIn : Str → Nat
  | [] => 0
  | c :: rest =>
      if isSpaceChar c then splitWsCount rest
      else splitWsCountIn rest

end

/-- The HTML tree BeautifulSoup produces: element nodes with a tag name and
attributes, and text nodes (NavigableStrings). -/
inductive Node where
  | text (s : Str)
  | elem (tag : Str) (attrs : List (Str × Str)) (children : List Node)

/-- The children of a node (empty for text nodes). -/
def Node.childrenOf : Node → List Node
  | .text _ => []
  | .elem _ _ cs => cs

/-- The tag of a node, if it is an element. -/
def Node.tagOf : Node → Option Str
  | .text _ => none
  | .elem t _ _ => some t

/-- Whether a node is an element with the given tag. -/
def isTag (t : Str) : Node → Bool
  | .text _ => false
  | .elem tg _ _ => tg = t

/-- Whether a node is an element. -/
def isElem : Node → Bool
  | .text _ => false
  | .elem _ _ _ => true

mutual

/-- All strict descendants of a node in document (pre-)order.  This is the
iteration order of BeautifulSoup's `find_all` / `.descendants`. -/
def descendants : Node → List Node
  | .text _ => []
  | .elem _ _ cs => descendantsList cs

/-- Descendants of a forest, in document order. -/
def descendantsList : List Node → List Node
  | [] => []
  | n :: rest => n :: descendants n ++ descendantsList rest

end

mutual

/-- The descendant text-node strings of a node, in document order
(BeautifulSoup's `.strings`). -/
def collectTexts : Node → List Str
  | .text s => [s]
  | .elem _ _ cs => collectTextsList cs

/-- Strings of a forest, in document order. -/
def collectTextsList : List Node → List Str
  | [] => []
  | n :: rest => collectTexts n ++ collectTextsList rest

end

/-- BeautifulSoup `get_text(sep, strip=True)`: strip every descendant string,
drop the ones that become empty, join with `sep`.  The script calls it with
`sep = " "` (most places) and with no separator (`strip=True` only) for the
bold-subject path. -/
def getTextStrip (sep : Str) (n : Node) : Str :=
  List.intercalate sep (((collectTexts n).map trimStr).filter (fun s => s ≠ []))

/-- `soup.find_all(tags)` for a list of tag names: matching descendant
elements in document order. -/
def findAllTags (tags : List Str) (n : Node) : List Node :=
  (descendants n).filter (fun m => tags.any (fun t => isTag t m))

/-- `soup.find(tags)`: the first matching descendant, if any. -/
def findFirstTags (tags : List Str) (n : Node) : Option Node :=
  (findAllTags tags n).head?

/-- `elem.get(name)`: first attribute with the given name. -/
def getAttr (attrs : List (Str × Str)) (k : Str) : Option Str :=
  (attrs.find? (fun a => a.1 = k)).map (fun a => a.2)

/-! ### The numeric-token regexes

`parse_attendance_html` uses three regexes on text.  We model exactly the
observable part the code uses: whether a match exists, and `group(1)`.

Method 1 uses `re.search(r'\(?\b(\d{1,3}\.?\d*)\b\)?\s*%?', text)`.  Because
`\(?`, `\)?`, `\s*` and `%?` are all optional and `(` is itself a non-word
character, a match exists exactly at the first digit run whose preceding
character is a non-word character (or the start), subject to the trailing
`\b`.  The greedy/backtracking behaviour of `\d{1,3}\.?\d*` followed by `\b`
gives `group(1)` as follows (with `D1` the maximal digit run at the start
position and `D2` the maximal digit run after a following dot):
* no dot directly after `D1` (or `|D1| > 3`): group is `D1`, valid only if
  the character after `D1` is absent or non-word (note `|D1| ≥ 4` makes
  `\d{1,3}\.?\d*` still swallow the whole run: `\d*` takes the excess);
* dot after `D1`, `|D1| ≤ 3`, `D2` nonempty: group is `D1.D2` if the
  character after `D2` is absent or non-word, else the engine backtracks
  `\d*` to empty and the group is `D1.` (boundary between `.` and a digit);
* dot after `D1`, `|D1| ≤ 3`, `D2` empty: group is `D1.` if a word character
  follows the dot (so that the trailing `\b` holds after `.`), else `D1`.
If a start position admits no match the engine moves right; positions inside
a digit run are never valid starts (the preceding character is a digit). -/

/-- `group(1)` of the Method-1 regex when anchored at a valid start position
(string starting with a digit whose predecessor was non-word). `none` means
the engine must keep scanning. -/
def m1TokenAt (s : Str) : Option Str :=
  let d1 := s.takeWhile isDigitChar
  let rest := s.drop d1.length
  match rest with
  | '.' :: r2 =>
      if d1.length ≤ 3 then
        let d2 := r2.takeWhile isDigitChar
        let rest2 := r2.drop d2.length
        if d2 ≠ [] then
          if rest2.head?.all (fun c => !(isWordChar c)) then some (d1 ++ '.' :: d2)
          else some (d1 ++ ['.'])
        else
          if r2.head?.any isWordChar then some (d1 ++ ['.']) else some d1
      else some d1
  | c :: _ => if isWordChar c then none else some d1
  | [] => some d1

/-- Left-to-right scan for the Method-1 regex.  `prevOk` records whether the
previous character permits a `\b` before a digit here. -/
def m1TokenGo : Nat → Bool → Str → Option Str
  | _, _, [] => none
  | 0, _, _ => none
  | fuel + 1, prevOk, c :: rest =>
      if isDigitChar c && prevOk then
        match m1TokenAt (c :: rest) with
        | some t => some t
        | none => m1TokenGo fuel (!(isWordChar c)) rest
      else
        m1TokenGo fuel (!(isWordChar c)) rest

/-- `re.search(r'\(?\b(\d{1,3}\.?\d*)\b\)?\s*%?', text)`, as `group(1)` of
the first match (`none` if no match). -/
def m1Token (s : Str) : Option Str :=
  m1TokenGo s.length true s

/-- Scan for `re.search(r'\battendance\b', text, re.I)`. -/
def attendanceWordGo : Nat → Bool → Str → Bool
  | _, _, [] => false
  | 0, _, _ => false
  | fuel + 1, prevOk, c :: rest =>
      if prevOk && lowerStr ((c :: rest).take 10) = "attendance".data
          && ((c :: rest).drop 10).head?.all (fun c2 => !(isWordChar c2)) then
        true
      else attendanceWordGo fuel (!(isWordChar c)) rest

/-- `re.search(r'\battendance\b', text, re.I)` as a Boolean. -/
def attendanceWord (s : Str) : Bool :=
  attendanceWordGo s.length true s

/-- `re.search(r'(\d{1,3}\.?\d*)\s*%?', text)` (Method 2), as `group(1)` of
the first match.  Everything after the group is optional, so the match is
anchored at the first digit of the string (word boundaries are not
required), and the group swallows the digit run, plus `.D2` if the run has
at most 3 digits and a dot follows (including a bare trailing dot: `\s*%?`
puts no constraint after the group). -/
def m2Token (s : Str) : Option Str :=
  match s.dropWhile (fun c => !(isDigitChar c)) with
  | [] => none
  | s1 =>
      let d1 := s1.takeWhile isDigitChar
      let rest := s1.drop d1.length
      if d1.length ≤ 3 then
        match rest with
        | '.' :: r2 => some (d1 ++ '.' :: r2.takeWhile isDigitChar)
        | _ => some d1
      else some d1

/-- Digit-string accumulation, as Python `float`/`int` read decimal digits. -/
def natOfDigits (ds : Str) : Nat :=
  ds.foldl (fun a c => a * 10 + (c.toNat - 48)) 0

/-- Python `float()` applied to the tokens the three regexes can produce
(`digits`, `digits.`, `digits.digits`), modelled in `ℚ`. -/
def floatOfToken (t : Str) : ℚ :=
  match t.drop (t.takeWhile isDigitChar).length with
  | '.' :: fr =>
      (natOfDigits (t.takeWhile isDigitChar) : ℚ) + (natOfDigits fr : ℚ) / (10 : ℚ) ^ fr.length
  | _ => (natOfDigits (t.takeWhile isDigitChar) : ℚ)

/-! ### The Method-3 free-text regex

`re.findall(r'([A-Za-z0-9\-&\s]{4,80})[:\-\s]{1,4}(\d{1,3}\.?\d*)\s*%', text)`
with full greedy/backtracking semantics: at each start position the engine
tries the label length `l1` from its maximum down to 4; for each `l1` the
separator length `l2` from its maximum down to 1; then the numeric group
followed by `\s*` and a literal `%`.  Matches are found leftmost-first and
continue after the consumed `%` (non-overlapping). -/

/-- The character class `[A-Za-z0-9\-&\s]` of the label group. -/
def cls1Char (c : Char) : Bool :=
  c.isAlpha || isDigitChar c || c = '-' || c = '&' || isSpaceChar c

/-- The character class `[:\-\s]` of the separator. -/
def cls2Char (c : Char) : Bool :=
  c = ':' || c = '-' || isSpaceChar c

/-- `\s*%`: skip whitespace, require a literal `%`; return the rest. -/
def contPct (s : Str) : Option Str :=
  match s.dropWhile isSpaceChar with
  | '%' :: r => some r
  | _ => none

/-- `(\d{1,3}\.?\d*)\s*%` at a fixed position, with backtracking: any
shrinking of the digit parts leaves a digit as the next character, which can
satisfy neither `\s*` nor `%`, so the only candidates are the full token
(and, when a dot with trailing digits fails, nothing else can succeed). -/
def m3Num (s : Str) : Option (Str × Str) :=
  let d1 := s.takeWhile isDigitChar
  if d1 = [] then none
  else
    let rest := s.drop d1.length
    if d1.length ≤ 3 then
      match rest with
      | '.' :: r2 =>
          let d2 := r2.takeWhile isDigitChar
          let rest2 := r2.drop d2.length
          (contPct rest2).map (fun rem => (d1 ++ '.' :: d2, rem))
      | _ => (contPct rest).map (fun rem => (d1, rem))
    else (contPct rest).map (fun rem => (d1, rem))

/-- Try separator lengths `l2, l2-1, ..., 1` after a label of length `l1`. -/
def m3TrySep (s : Str) (l1 : Nat) : Nat → Option (Str × Str × Str)
  | 0 => none
  | l2 + 1 =>
      match m3Num ((s.drop l1).drop (l2 + 1)) with
      | some (tok, rem) => some (s.take l1, tok, rem)
      | none => m3TrySep s l1 l2

/-- Try label lengths `l1, l1-1, ..., 4`. -/
def m3TryG1 (s : Str) : Nat → Option (Str × Str × Str)
  | 0 => none
  | l1 + 1 =>
      if l1 + 1 < 4 then none
      else
        let after1 := s.drop (l1 + 1)
        let run2 := (after1.takeWhile cls2Char).length
        match m3TrySep s (l1 + 1) (min 4 run2) with
        | some r => some r
        | none => m3TryG1 s l1

/-- One anchored attempt of the Method-3 regex: label, separator, number,
`\s*%`; returns (label, numeric token, rest after the `%`). -/
def m3At (s : Str) : Option (Str × Str × Str) :=
  m3TryG1 s (min 80 (s.takeWhile cls1Char).length)

/-- Leftmost, non-overlapping scan of the Method-3 regex. -/
def m3Scan : Nat → Str → List (Str × Str)
  | 0, _ => []
  | _, [] => []
  | fuel + 1, c :: rest =>
      match m3At (c :: rest) with
      | some (subj, tok, rem) => (subj, tok) :: m3Scan fuel rem
      | none => m3Scan fuel rest

/-- The full Method-3 `findall`, as (label, numeric token) pairs. -/
def m3Findall (s : Str) : List (Str × Str) :=
  m3Scan s.length s

/-! ### The 404 XHR-endpoint regex

`re.findall(r'(["\'])(\/[^\s"\']*attendance[^\s"\']*)\1', combined, re.I)`:
a quote, a slash, a run of non-whitespace non-quote characters containing
"attendance" (case-insensitive), closed by the same quote.  Because the body
class excludes both quote kinds and whitespace, the match must end exactly at
the end of the maximal body run, whose follower must be the opening quote. -/

/-- The body class `[^\s"\']`. -/
def endpointBodyChar (c : Char) : Bool :=
  !(isSpaceChar c) && c ≠ '"' && c ≠ '\''

/-- Leftmost non-overlapping scan of the endpoint regex, projected to the
path group (the script only uses `ep[1]`). -/
def findEndpointsGo : Nat → Str → List Str
  | 0, _ => []
  | _, [] => []
  | fuel + 1, q :: rest =>
      if q = '"' || q = '\'' then
        match rest with
        | '/' :: r2 =>
            let body := r2.takeWhile endpointBodyChar
            let after := r2.drop body.length
            if containsSub (lowerStr body) "attendance".data && after.head? = some q then
              ('/' :: body) :: findEndpointsGo fuel (after.drop 1)
            else findEndpointsGo fuel rest
        | _ => findEndpointsGo fuel rest
      else findEndpointsGo fuel rest

/-- The endpoint `findall` used in the 404 diagnostic branch. -/
def findEndpoints (s : Str) : List Str :=
  findEndpointsGo s.length s

/-! ### Attendance records and post-processing -/

/-- One parsed attendance entry: the dicts
`{'subject': ..., 'percentage': ...}` the parser accumulates. -/
structure Rec where
  subject : Str
  percentage : ℚ
deriving DecidableEq, Repr

/-- A decimal digit as a character. -/
def digitCh (d : Nat) : Char :=
  Char.ofNat (48 + d)

/-- Little-endian decimal digits, computed with a fuel argument so that the
definition is structurally recursive (and hence evaluates by kernel
reduction on concrete inputs). -/
def natDigitsRev : Nat → Nat → List Nat
  | 0, _ => []
  | _ + 1, 0 => []
  | fuel + 1, n + 1 => (n + 1) % 10 :: natDigitsRev fuel ((n + 1) / 10)

/-- Little-endian decimal digits of `n`. -/
def natDigits (n : Nat) : List Nat :=
  natDigitsRev n n

/-- Decimal rendering of a natural number (empty for 0). -/
def natDigitsStr (n : Nat) : Str :=
  (natDigits n).reverse.map digitCh

/-- Decimal rendering of a natural number (Python `str`). -/
def natRepr (n : Nat) : Str :=
  if n = 0 then ['0'] else natDigitsStr n

/-- Model of the f-string rendering `f"{x}"` of a float.  Python's shortest
round-trip `repr` of a float is injective and contains no `'-'` for the
non-negative values the parser produces; those are the only two properties
of the rendering the dedup key construction relies on, and this rendering
(numerator and denominator of the reduced fraction) has both. -/
def pctRepr (q : ℚ) : Str :=
  ((if q < 0 then ['n'] else []) ++ natDigitsStr q.num.natAbs) ++ '/' :: natDigitsStr q.den

/-- The dedup key of the post-processing loop, `f"{subject}-{percentage}"`. -/
def recKey (r : Rec) : Str :=
  r.subject ++ '-' :: pctRepr r.percentage

/-- The dedup loop of `parse_attendance_html`: walk the list keeping a `seen`
set of keys, keep the first occurrence of each key. -/
def dedupKeyedGo {κ : Type} [DecidableEq κ] (key : Rec → κ) : List κ → List Rec → List Rec
  | _, [] => []
  | seen, r :: rs =>
      if key r ∈ seen then dedupKeyedGo key seen rs
      else r :: dedupKeyedGo key (key r :: seen) rs

/-- Deduplication by a key function, keeping first occurrences in order. -/
def dedupKeyed {κ : Type} [DecidableEq κ] (key : Rec → κ) (l : List Rec) : List Rec :=
  dedupKeyedGo key [] l

/-! ### Method 1: the element scan -/

/-- The running state of the Method-1 loop: the text node most recently seen
in document order (what `elem.find_previous(string=True)` would return), and
the records accumulated so far. -/
structure M1State where
  last : Option Str
  acc : List Rec

/-- The tag list of `soup.find_all(['span', 'label', 'div', 'td', 'th'])`. -/
def m1Tags : List Str :=
  ["span".data, "label".data, "div".data, "td".data, "th".data]

/-- The tag list of `parent.find(['strong', 'b'])`. -/
def strongTags : List Str :=
  ["strong".data, "b".data]

/-- `str(e)` for the `AttributeError` raised by `pct_match.group(1)` when
`pct_match` is `None` (text of the exception message modelled without
quotes). -/
def noneGroupErr : Str :=
  "AttributeError: NoneType object has no attribute group".data

/-- The preceding-text-node subject path: strip the previous string; if it
is non-empty and does not start with a digit (`re.match(r'^\d', ...)`), take
its first 50 characters, else the fallback literal `'Subject'`. -/
def m1PrevSubject (lastv : Option Str) : Str :=
  match lastv with
  | some prev =>
      if !(trimStr prev).isEmpty && !((trimStr prev).head?.any isDigitChar) then
        (trimStr prev).take 50
      else "Subject".data
  | none => "Subject".data

/-- The subject inference of the Method-1 loop: a strong/b element found in
the parent with non-empty stripped text wins, else the preceding-text path
(the `parent` here is `elem.find_parent()`, which always exists — for
top-level elements it is the document object). -/
def m1Subject (parent : Node) (lastv : Option Str) : Str :=
  match findFirstTags strongTags parent with
  | some s =>
      if (getTextStrip [] s).isEmpty then m1PrevSubject lastv else getTextStrip [] s
  | none => m1PrevSubject lastv

/-- The body of the Method-1 loop for one matched element: the percentage
regex, the acceptance condition
`pct_match and '%' in text or re.search(r'\battendance\b', text, re.I) or
('%' in text and len(text.split()) <= 6)` (which, by Python precedence, can
be entered with `pct_match = None`, making `float(pct_match.group(1))`
raise), and the subject inference. -/
def m1Process (parent : Node) (self : Node) (st : M1State) : Except Str M1State :=
  let text := getTextStrip [' '] self
  if text = [] || text.length > 400 then .ok st
  else
    let pm := m1Token text
    let condA := pm.isSome && text.contains '%'
    let condB := attendanceWord text
    let condC := text.contains '%' && decide (splitWsCount text ≤ 6)
    if condA || condB || condC then
      match pm with
      | none => .error noneGroupErr
      | some tok =>
          .ok { st with acc := st.acc ++ [⟨m1Subject parent st.last, floatOfToken tok⟩] }
    else .ok st

mutual

/-- Walk one node in document order: text nodes update `last`; elements with
a matching tag run the Method-1 body (the element itself is visited before
its descendants, matching `find_all` order), then the children are walked
with this element as their parent. -/
def m1Node (parent : Node) (st : M1State) : Node → Except Str M1State
  | .text s => .ok { st with last := some s }
  | .elem tag attrs cs =>
      match (if m1Tags.any (fun t => t = tag) then
               m1Process parent (.elem tag attrs cs) st
             else .ok st) with
      | .error e => .error e
      | .ok st1 => m1List (.elem tag attrs cs) st1 cs

/-- Walk a list of siblings in order. -/
def m1List (parent : Node) (st : M1State) : List Node → Except Str M1State
  | [] => .ok st
  | n :: rest =>
      match m1Node parent st n with
      | .error e => .error e
      | .ok st1 => m1List parent st1 rest

end

/-- Method 1 of `parse_attendance_html` (the span/label/div/td/th scan).
The root plays the role of the BeautifulSoup document object. -/
def method1Recs (root : Node) : Except Str (List Rec) :=
  match m1List root { last := none, acc := [] } root.childrenOf with
  | .error e => .error e
  | .ok st => .ok st.acc

/-! ### Method 2: the table scan -/

/-- One row of the Method-2 table loop: the td/th descendant texts, requiring
at least two columns, the first numeric token of the last column, and the
first column truncated to 50 characters as the subject.  (`float` cannot
fail on a matched token, so the `except: continue` is dead.) -/
def rowRec (row : Node) : Option Rec :=
  let cols := (findAllTags ["td".data, "th".data] row).map (getTextStrip [' '])
  if cols.length ≥ 2 then
    match cols.getLast? with
    | some lastCol =>
        (m2Token lastCol).map (fun tok => ⟨(cols.headD []).take 50, floatOfToken tok⟩)
    | none => none
  else none

/-- Method 2 of `parse_attendance_html`: every table, every `tr` after the
first, rows in document order. -/
def method2Recs (root : Node) : List Rec :=
  (findAllTags ["table".data] root).flatMap (fun table =>
    ((findAllTags ["tr".data] table).drop 1).filterMap rowRec)

/-! ### Method 3: the free-text regex scan -/

/-- Method 3 of `parse_attendance_html`: the Method-3 regex over the whole
page text, first 20 matches, subjects stripped and truncated to 50. -/
def method3Recs (root : Node) : List Rec :=
  ((m3Findall (getTextStrip [' '] root)).take 20).map
    (fun p => ⟨(trimStr p.1).take 50, floatOfToken p.2⟩)

/-! ### The strategy chain and post-processing -/

/-- The raw candidate list of `parse_attendance_html`: Method 1; if it
produced nothing, Method 2; if that produced nothing, Method 3.  An
exception in Method 1 propagates. -/
def rawRecs (root : Node) : Except Str (List Rec) :=
  match method1Recs root with
  | .error e => .error e
  | .ok d1 =>
      if d1 ≠ [] then .ok d1
      else if method2Recs root ≠ [] then .ok (method2Recs root)
      else .ok (method3Recs root)

/-- The final record list of `parse_attendance_html`: `none` when no method
produced records (the `"⚠️ Could not extract..."` branch), otherwise the
deduplicated list truncated to 20 (`unique[:20]`). -/
def extractionRecords (root : Node) : Except Str (Option (List Rec)) :=
  match rawRecs root with
  | .error e => .error e
  | .ok raw => .ok (if raw = [] then none else some ((dedupKeyed recKey raw).take 20))

/-! ### Report formatting -/

/-- The per-record tier emoji:
`"✅" if pct >= 75 else ("⚠️" if pct >= 65 else "🔴")`. -/
def emojiFor (p : ℚ) : Str :=
  if 75 ≤ p then "✅".data else if 65 ≤ p then "⚠️".data else "🔴".data

/-- Decimal rendering of an integer. -/
def intRepr (n : ℤ) : Str :=
  (if n < 0 then ['-'] else []) ++ natRepr n.natAbs

/-- One-decimal rendering of a rational, modelling the one-decimal f-string
formatting of the average (rounding model: half away from zero; the report's
average is the only use and no claim depends on its digits). -/
def oneDecimal (q : ℚ) : Str :=
  let n : ℤ := ⌊q * 10 + 1 / 2⌋
  intRepr (n / 10) ++ '.' :: natRepr (n % 10).natAbs

/-- The `"⚠️ Could not extract..."` message. -/
def emptyDataMsg : Str :=
  "⚠️ Could not extract attendance data. Page layout changed or site uses JS/XHR.".data

/-- The success message built from the final records (header with timestamp
and user, one line per record with the tier emoji, the average line and the
legend). -/
def buildReport (username now : Str) (recs : List Rec) : Str :=
  "📚 *MGIT Attendance Report*\n".data
    ++ "⏰ ".data ++ now ++ " IST\n".data
    ++ "👤 ".data ++ username ++ "\n".data
    ++ "━━━━━━━━━━━━━━━━━━\n\n".data
    ++ recs.flatMap (fun r =>
          emojiFor r.percentage ++ " *".data ++ r.subject ++ "*: ".data
            ++ pctRepr r.percentage ++ "%\n".data)
    ++ "\n━━━━━━━━━━━━━━━━━━\n📊 Average: ".data
    ++ oneDecimal ((recs.map (fun r => r.percentage)).sum / (recs.length : ℚ))
    ++ "%\n✅ ≥75% | ⚠️ 65-74% | 🔴 <65%".data

/-- `parse_attendance_html`: the message it returns, or the exception it
raises (as the exception's text). -/
def parseAttendanceHtml (username now : Str) (root : Node) : Except Str Str :=
  match extractionRecords root with
  | .error e => .error e
  | .ok none => .ok emptyDataMsg
  | .ok (some recs) => .ok (buildReport username now recs)

/-! ### The `get_attendance` pipeline

The network is modelled by an `Env` holding the portal's responses to the
requests the script makes, in the order it makes them.  A response carries
its status code, its raw text, the BeautifulSoup tree of that text, and its
final URL.  The three `requests` exception kinds the code distinguishes
(`Timeout`, `ConnectionError`, anything else) are the non-`ok` constructors
of `FetchR`. -/

/-- One HTTP response as the script observes it. -/
structure HttpResp where
  status : Nat
  raw : Str
  dom : Node
  url : Str

/-- Outcome of one request: a response, or one of the exception kinds the
enclosing `try` distinguishes. -/
inductive FetchR where
  | ok (r : HttpResp)
  | timeout
  | connErr
  | exn (msg : Str)

/-- The startup configuration the script reads from the environment. -/
structure Config where
  baseUrl : Str
  username : Str
  now : Str
  devNumber : Option Str

/-- The portal's behaviour for one run. `headStatus` models
`session.head(url)` in the login-endpoint probing loop (`none` = the request
raised). -/
structure Env where
  useSelenium : Bool
  seleniumHtml : Option Node
  r0 : FetchR
  headStatus : Str → Option Nat
  login : FetchR
  att : FetchR

/-- The terminal condition of one run (the spec's `PipelineStatus`,
annotated onto the translation branch by branch; the Python itself only
returns the message string). -/
inductive PStatus where
  | ok
  | portalUnreachable
  | loginPostFailed
  | loginFailed
  | attNotFound
  | attUnreachable
  | extractionEmpty
  | netTimeout
  | connError
  | unexpected
deriving DecidableEq, Repr

/-- What one run of `get_attendance` produces: the returned message, the
status of the branch that produced it, and whether the attendance-page GET
was attempted. -/
structure RunResult where
  message : Str
  status : PStatus
  attFetched : Bool
deriving DecidableEq, Repr

/-- `"⏱️ Request timed out. MGIT portal might be slow."` -/
def timeoutMsg : Str :=
  "⏱️ Request timed out. MGIT portal might be slow.".data

/-- `"🌐 Connection error. Please check connectivity."` -/
def connErrMsg : Str :=
  "🌐 Connection error. Please check connectivity.".data

/-- The broad-except message `f"❌ Error: {str(e)[:200]}\n\nPlease verify
credentials."`. -/
def exnMsg (e : Str) : Str :=
  "❌ Error: ".data ++ e.take 200 ++ "\n\nPlease verify credentials.".data

/-- `"❌ Login failed! Check your MGIT username and password."` -/
def loginFailedMsg : Str :=
  "❌ Login failed! Check your MGIT username and password.".data

/-- The login-failure indicator vocabulary of the code:
`("invalid", "incorrect", "unauthorized", "login failed", "error")`. -/
def loginFailKeywords : List Str :=
  ["invalid".data, "incorrect".data, "unauthorized".data, "login failed".data, "error".data]

/-- The hidden-input collection over the first form:
`form.find_all` over inputs declared hidden, keeping named inputs as
(name, value-or-empty) pairs. -/
def hiddenFields (form : Node) : List (Str × Str) :=
  (findAllTags ["input".data] form).filterMap (fun inp =>
    match inp with
    | .elem _ attrs _ =>
        if getAttr attrs "type".data = some "hidden".data then
          (getAttr attrs "name".data).map (fun n => (n, (getAttr attrs "value".data).getD []))
        else none
    | .text _ => none)

/-- Resolution of a possibly relative URL against the base:
`u if u.startswith("http") else BASE_URL + (u if u.startswith("/") else "/" + u)`. -/
def normalizeUrl (base u : Str) : Str :=
  if "http".data.isPrefixOf u then u
  else base ++ (if "/".data.isPrefixOf u then u else '/' :: u)

/-- The login-endpoint probing loop run when the first page has no form:
try `HEAD` on the candidate paths, take the first with status 200 or 302,
else fall back to `/login`. -/
def probeLoginUrl (cfg : Config) (env : Env) : List Str → Str
  | [] => cfg.baseUrl ++ "/login".data
  | c :: rest =>
      match env.headStatus (cfg.baseUrl ++ c) with
      | some st => if st = 200 || st = 302 then cfg.baseUrl ++ c else probeLoginUrl cfg env rest
      | none => probeLoginUrl cfg env rest

/-- The login URL determination: the form's `action` resolved against the
base when a form was found, else the probing loop. -/
def resolveLoginUrl (cfg : Config) (env : Env) (r0 : HttpResp) : Str :=
  match findFirstTags ["form".data] r0.dom with
  | some form =>
      (match form with
       | .elem _ attrs _ =>
           match getAttr attrs "action".data with
           | some act => normalizeUrl cfg.baseUrl act
           | none => probeLoginUrl cfg env ["/login".data, "/accounts/login".data,
                                           "/auth/login".data, "/users/login".data]
       | .text _ => cfg.baseUrl ++ "/login".data)
  | none => probeLoginUrl cfg env ["/login".data, "/accounts/login".data,
                                   "/auth/login".data, "/users/login".data]

/-! ### Endpoint resolution (the attendance-link search) -/

/-- The per-anchor test of the first search pass:
`soup.find_all("a", href=True)`, hit when `"attendance"` occurs in the
lowered href or in the lowered visible text; the hit yields the href. -/
def anchorHit (n : Node) : Option Str :=
  match n with
  | .elem tag attrs _ =>
      if tag = "a".data then
        match getAttr attrs "href".data with
        | some href =>
            if containsSub (lowerStr href) "attendance".data
                || containsSub (lowerStr (getTextStrip [' '] n)) "attendance".data then
              some href
            else none
        | none => none
      else none
  | .text _ => none

/-- First pass: the first anchor hit in document order. -/
def firstAnchorHref (root : Node) : Option Str :=
  (descendants root).findSome? anchorHit

/-- The attribute vocabulary of the second pass. -/
def dataAttrNames : List Str :=
  ["data-href".data, "data-url".data, "data-target".data, "onclick".data]

/-- The per-element test of the second pass: the first of the four
attributes whose value contains `"attendance"` (lower-cased). -/
def attrHit (n : Node) : Option Str :=
  match n with
  | .elem _ attrs _ =>
      dataAttrNames.findSome? (fun a =>
        match getAttr attrs a with
        | some v => if containsSub (lowerStr v) "attendance".data then some v else none
        | none => none)
  | .text _ => none

/-- Second pass: the first attribute hit over all elements in document
order. -/
def firstAttrVal (root : Node) : Option Str :=
  (descendants root).findSome? attrHit

/-- The fixed fallback path. -/
def defaultAttendancePath : Str :=
  "/student/attendance".data

/-- The attendance-link search of `get_attendance`: anchors, then data
attributes, then the fixed default. -/
def resolveAttendanceHref (root : Node) : Str :=
  match firstAnchorHref root with
  | some h => h
  | none =>
      match firstAttrVal root with
      | some v => v
      | none => defaultAttendancePath

/-! ### The pipeline itself -/

/-- `", ".join` of a list of strings. -/
def joinComma (l : List Str) : Str :=
  List.intercalate ", ".data l

/-- The `requests`-based path of `get_attendance` (everything after the
optional Selenium branch). -/
def requestsPath (cfg : Config) (env : Env) : RunResult :=
  match env.r0 with
  | .timeout => ⟨timeoutMsg, .netTimeout, false⟩
  | .connErr => ⟨connErrMsg, .connError, false⟩
  | .exn e => ⟨exnMsg e, .unexpected, false⟩
  | .ok r0 =>
      if r0.status ≠ 200 then
        ⟨"❌ Cannot reach MGIT portal (Status: ".data ++ natRepr r0.status
           ++ ", URL: ".data ++ r0.url ++ ")".data, .portalUnreachable, false⟩
      else
        let _loginUrl := resolveLoginUrl cfg env r0
        let _payload := hiddenFields ((findFirstTags ["form".data] r0.dom).getD r0.dom)
        match env.login with
        | .timeout => ⟨timeoutMsg, .netTimeout, false⟩
        | .connErr => ⟨connErrMsg, .connError, false⟩
        | .exn e => ⟨exnMsg e, .unexpected, false⟩
        | .ok lr =>
            if 400 ≤ lr.status then
              ⟨"❌ Login POST failed (Status: ".data ++ natRepr lr.status ++ ")".data,
               .loginPostFailed, false⟩
            else if loginFailKeywords.any (fun k => containsSub (lowerStr lr.raw) k) then
              ⟨loginFailedMsg, .loginFailed, false⟩
            else
              let href := resolveAttendanceHref lr.dom
              let _attUrl := normalizeUrl cfg.baseUrl href
              match env.att with
              | .timeout => ⟨timeoutMsg, .netTimeout, true⟩
              | .connErr => ⟨connErrMsg, .connError, true⟩
              | .exn e => ⟨exnMsg e, .unexpected, true⟩
              | .ok ar =>
                  if ar.status = 404 then
                    let eps := findEndpoints (lr.raw ++ ar.raw)
                    if eps ≠ [] then
                      ⟨"❌ Attendance page returned 404. Possible endpoints found: ".data
                         ++ joinComma ((eps.map (fun ep => cfg.baseUrl ++ ep)).take 5)
                         ++ "\nTry calling them with the same session (cookies).".data,
                       .attNotFound, true⟩
                    else
                      ⟨"❌ Could not access attendance page (Status: 404).".data,
                       .attNotFound, true⟩
                  else if ar.status ≠ 200 then
                    ⟨"❌ Could not access attendance page (Status: ".data ++ natRepr ar.status
                       ++ ", URL: ".data ++ ar.url ++ ")".data, .attUnreachable, true⟩
                  else
                    match extractionRecords ar.dom with
                    | .ok (some recs) => ⟨buildReport cfg.username cfg.now recs, .ok, true⟩
                    | .ok none => ⟨emptyDataMsg, .extractionEmpty, true⟩
                    | .error e => ⟨exnMsg e, .unexpected, true⟩

/-- `get_attendance`: the Selenium branch first when enabled (a parse
exception there is caught and falls through to the `requests` path, as does
a Selenium fetch failure), else the `requests` path. -/
def getAttendance (cfg : Config) (env : Env) : RunResult :=
  if env.useSelenium then
    match env.seleniumHtml with
    | some dom =>
        match extractionRecords dom with
        | .ok (some recs) => ⟨buildReport cfg.username cfg.now recs, .ok, false⟩
        | .ok none => ⟨emptyDataMsg, .extractionEmpty, false⟩
        | .error _ => requestsPath cfg env
    | none => requestsPath cfg env
  else requestsPath cfg env

/-! ### The send/suppress decision of `main` -/

/-- Where `main` routes the fetched message. -/
inductive Delivery where
  | toPrimary
  | toDev
  | skipped
deriving DecidableEq, Repr

/-- The prefix tuple `error_prefixes` of `main`. -/
def errorPrefixes : List Str :=
  ["❌".data, "⚠️ Could not extract".data, "⏱️".data, "🌐".data,
   "⚠️ Could not access".data, "❌ Selenium fetch failed".data]

/-- The decision of `main`: messages starting with an error prefix go to the
developer number when configured (with a debug wrapper) and are otherwise
suppressed; everything else goes to the student's number. -/
def dispatch (cfg : Config) (msg : Str) : Delivery :=
  if errorPrefixes.any (fun p => p.isPrefixOf msg) then
    match cfg.devNumber with
    | some _ => .toDev
    | none => .skipped
  else .toPrimary

/-! ## Helper lemmas -/

/-- A prefix of `a` is a prefix of `a ++ b`. -/
theorem pre_app {p : Str} (a b : Str) (h : p <+: a) : p <+: a ++ b :=
  h.trans (List.prefix_append a b)

/-- Every numeric token parses to a non-negative value. -/
theorem floatOfToken_nonneg (t : Str) : 0 ≤ floatOfToken t := by
  unfold floatOfToken
  split
  · positivity
  · positivity

/-! ### Descendants -/

/-- `descendantsList` is the flat-map of per-node blocks. -/
theorem descendantsList_eq (ns : List Node) :
    descendantsList ns = ns.flatMap (fun n => n :: descendants n) := by
  induction ns with
  | nil => rfl
  | cons n rest ih => simp [descendantsList, ih]

/-- A child is among the descendants. -/
theorem children_mem_descendants (n : Node) : ∀ c ∈ n.childrenOf, c ∈ descendants n := by
  intro c hc
  cases n with
  | text s => simp [Node.childrenOf] at hc
  | elem t a cs =>
      simp only [Node.childrenOf] at hc
      simp only [descendants, descendantsList_eq, List.mem_flatMap]
      exact ⟨c, hc, List.mem_cons_self _ _⟩

/-- Descendants of a member of a forest's descendant list are in that list. -/
theorem desc_sub_list (ns : List Node) :
    ∀ n ∈ descendantsList ns, descendants n ⊆ descendantsList ns :=
  match ns with
  | [] => by
      intro n hn
      simp [descendantsList] at hn
  | m :: rest => by
      intro n hn x hx
      rw [descendantsList] at hn ⊢
      rcases List.mem_cons.mp hn with h | h
      · subst h
        exact List.mem_cons_of_mem _ (List.mem_append.mpr (Or.inl hx))
      · rcases List.mem_append.mp h with h | h
        · have hsub : descendants n ⊆ descendants m := by
            cases m with
            | text s => simp [descendants] at h
            | elem t a cs =>
                rw [descendants] at h ⊢
                exact desc_sub_list cs n h
          exact List.mem_cons_of_mem m (List.mem_append.mpr (Or.inl (hsub hx)))
        · have := desc_sub_list rest n h hx
          exact List.mem_cons_of_mem m (List.mem_append.mpr (Or.inr this))

/-- Descendants of a descendant are descendants. -/
theorem desc_sub_node (m : Node) : ∀ n ∈ descendants m, descendants n ⊆ descendants m := by
  intro n hn
  cases m with
  | text s => simp [descendants] at hn
  | elem t a cs =>
      rw [descendants] at hn ⊢
      exact desc_sub_list cs n hn

/-- A found first tag is a matching descendant. -/
theorem findFirstTags_mem {tags : List Str} {n s : Node}
    (h : findFirstTags tags n = some s) :
    s ∈ descendants n ∧ tags.any (fun t => isTag t s) = true := by
  unfold findFirstTags findAllTags at h
  have hmem := List.mem_of_mem_head? h
  have := List.mem_filter.mp hmem
  exact ⟨this.1, this.2⟩

/-! ### Deduplication -/

/-- The dedup loop yields a sublist (so order is preserved and nothing new
appears). -/
theorem dedupKeyedGo_sublist {κ : Type} [DecidableEq κ] (key : Rec → κ) :
    ∀ (l : List Rec) (seen : List κ), (dedupKeyedGo key seen l).Sublist l := by
  intro l
  induction l with
  | nil => intro seen; simp [dedupKeyedGo]
  | cons r rs ih =>
      intro seen
      unfold dedupKeyedGo
      split
      · exact (ih seen).trans (List.sublist_cons_self r rs)
      · exact (ih (key r :: seen)).cons₂ r

/-- Two key functions that identify the same records produce the same dedup
result (generalised over the `seen` sets). -/
theorem dedupKeyedGo_congr {κ₁ κ₂ : Type} [DecidableEq κ₁] [DecidableEq κ₂]
    (k₁ : Rec → κ₁) (k₂ : Rec → κ₂)
    (hk : ∀ a b : Rec, k₁ a = k₁ b ↔ k₂ a = k₂ b) :
    ∀ (l : List Rec) (s₁ : List κ₁) (s₂ : List κ₂),
      (∀ r : Rec, k₁ r ∈ s₁ ↔ k₂ r ∈ s₂) →
      dedupKeyedGo k₁ s₁ l = dedupKeyedGo k₂ s₂ l := by
  intro l
  induction l with
  | nil => intro s₁ s₂ _; simp [dedupKeyedGo]
  | cons r rs ih =>
      intro s₁ s₂ hseen
      unfold dedupKeyedGo
      by_cases hmem : k₁ r ∈ s₁
      · rw [if_pos hmem, if_pos ((hseen r).mp hmem)]
        exact ih s₁ s₂ hseen
      · rw [if_neg hmem, if_neg (fun h => hmem ((hseen r).mpr h))]
        refine congrArg (r :: ·) (ih _ _ ?_)
        intro x
        simp only [List.mem_cons]
        constructor
        · rintro (h | h)
          · exact Or.inl ((hk x r).mp h)
          · exact Or.inr ((hseen x).mp h)
        · rintro (h | h)
          · exact Or.inl ((hk x r).mpr h)
          · exact Or.inr ((hseen x).mpr h)

/-- If the keys of a list are pairwise distinct, dedup is the identity. -/
theorem dedupKeyedGo_of_nodup {κ : Type} [DecidableEq κ] (key : Rec → κ) :
    ∀ (l : List Rec) (seen : List κ), (l.map key).Nodup →
      (∀ r ∈ l, key r ∉ seen) → dedupKeyedGo key seen l = l := by
  intro l
  induction l with
  | nil => intro seen _ _; simp [dedupKeyedGo]
  | cons r rs ih =>
      intro seen hnd hseen
      unfold dedupKeyedGo
      rw [if_neg (hseen r (List.mem_cons_self r rs))]
      simp only [List.map_cons, List.nodup_cons] at hnd
      refine congrArg (r :: ·) (ih _ hnd.2 ?_)
      intro x hx
      simp only [List.mem_cons]
      rintro (h | h)
      · exact hnd.1 (h ▸ List.mem_map_of_mem key hx)
      · exact hseen x (List.mem_cons_of_mem r hx) h

/-! ### Injectivity of the dedup key -/

/-- Splitting at a separator that occurs in neither left part is unique. -/
theorem append_sep_inj {sep : Char} :
    ∀ (a₁ : Str) {b₁ : Str} (a₂ : Str) {b₂ : Str}, sep ∉ a₁ → sep ∉ a₂ →
      a₁ ++ sep :: b₁ = a₂ ++ sep :: b₂ → a₁ = a₂ ∧ b₁ = b₂ := by
  intro a₁
  induction a₁ with
  | nil =>
      intro b₁ a₂ b₂ _ h₂ heq
      cases a₂ with
      | nil => simpa using heq
      | cons c r =>
          simp only [List.nil_append, List.cons_append, List.cons.injEq] at heq
          exact absurd (heq.1 ▸ List.mem_cons_self c r) h₂
  | cons c r ih =>
      intro b₁ a₂ b₂ h₁ h₂ heq
      cases a₂ with
      | nil =>
          simp only [List.nil_append, List.cons_append, List.cons.injEq] at heq
          exact absurd (heq.1.symm ▸ List.mem_cons_self c r) h₁
      | cons c' r' =>
          simp only [List.cons_append, List.cons.injEq] at heq
          obtain ⟨h1, h2⟩ :=
            ih r' (fun h => h₁ (List.mem_cons_of_mem c h))
              (fun h => h₂ (List.mem_cons_of_mem c' h)) heq.2
          exact ⟨by rw [heq.1, h1], h2⟩

/-- Digit characters are injective below 10. -/
theorem digitCh_inj_lt : ∀ a < 10, ∀ b < 10, digitCh a = digitCh b → a = b := by
  decide

/-- Digit characters are none of the separator characters. -/
theorem digitCh_notSep : ∀ d < 10, digitCh d ≠ '/' ∧ digitCh d ≠ '-' ∧ digitCh d ≠ 'n' := by
  decide

/-- Mapping `digitCh` over digit lists (entries `< 10`) is injective. -/
theorem map_digitCh_inj : ∀ (l₁ l₂ : List Nat), (∀ d ∈ l₁, d < 10) → (∀ d ∈ l₂, d < 10) →
    l₁.map digitCh = l₂.map digitCh → l₁ = l₂ := by
  intro l₁
  induction l₁ with
  | nil =>
      intro l₂ _ _ h
      cases l₂ with
      | nil => rfl
      | cons c r => simp at h
  | cons d r ih =>
      intro l₂ h₁ h₂ h
      cases l₂ with
      | nil => simp at h
      | cons d' r' =>
          simp only [List.map_cons, List.cons.injEq] at h
          have hd := digitCh_inj_lt d (h₁ d (List.mem_cons_self d r)) d'
            (h₂ d' (List.mem_cons_self d' r')) h.1
          have hr := ih r' (fun x hx => h₁ x (List.mem_cons_of_mem d hx))
            (fun x hx => h₂ x (List.mem_cons_of_mem d' hx)) h.2
          rw [hd, hr]

/-- The fuel-based digits reconstruct their number. -/
theorem natDigitsRev_ofDigits :
    ∀ (fuel n : Nat), n ≤ fuel → Nat.ofDigits 10 (natDigitsRev fuel n) = n := by
  intro fuel
  induction fuel with
  | zero =>
      intro n hn
      have : n = 0 := Nat.le_zero.mp hn
      subst this
      simp [natDigitsRev, Nat.ofDigits]
  | succ f ih =>
      intro n hn
      cases n with
      | zero => simp [natDigitsRev, Nat.ofDigits]
      | succ m =>
          rw [natDigitsRev, Nat.ofDigits_cons]
          have hdiv : (m + 1) / 10 ≤ f := by
            have := Nat.div_lt_self (Nat.succ_pos m) (by norm_num : 1 < 10)
            omega
          rw [ih ((m + 1) / 10) hdiv]
          omega

/-- Entries of the fuel-based digits are digits. -/
theorem natDigitsRev_lt : ∀ (fuel n : Nat), ∀ d ∈ natDigitsRev fuel n, d < 10 := by
  intro fuel
  induction fuel with
  | zero => intro n d hd; simp [natDigitsRev] at hd
  | succ f ih =>
      intro n d hd
      cases n with
      | zero => simp [natDigitsRev] at hd
      | succ m =>
          rw [natDigitsRev] at hd
          rcases List.mem_cons.mp hd with h | h
          · subst h; exact Nat.mod_lt _ (by norm_num)
          · exact ih _ d h

/-- `natDigitsStr` is injective. -/
theorem natDigitsStr_inj {m n : Nat} (h : natDigitsStr m = natDigitsStr n) : m = n := by
  unfold natDigitsStr at h
  have hm : ∀ d ∈ (natDigits m).reverse, d < 10 := by
    intro d hd
    exact natDigitsRev_lt m m d (List.mem_reverse.mp hd)
  have hn : ∀ d ∈ (natDigits n).reverse, d < 10 := by
    intro d hd
    exact natDigitsRev_lt n n d (List.mem_reverse.mp hd)
  have hrev := map_digitCh_inj _ _ hm hn h
  have hdig : natDigits m = natDigits n := by
    have := congrArg List.reverse hrev
    simpa using this
  have h1 := natDigitsRev_ofDigits m m le_rfl
  have h2 := natDigitsRev_ofDigits n n le_rfl
  unfold natDigits at hdig
  rw [hdig] at h1
  omega

/-- No separator character occurs in a digit rendering. -/
theorem sep_not_mem_natDigitsStr (n : Nat) {c : Char}
    (hc : c = '/' ∨ c = '-' ∨ c = 'n') : c ∉ natDigitsStr n := by
  intro hmem
  unfold natDigitsStr at hmem
  obtain ⟨d, hd, hdc⟩ := List.mem_map.mp hmem
  have hlt : d < 10 := natDigitsRev_lt n n d (List.mem_reverse.mp hd)
  obtain ⟨h1, h2, h3⟩ := digitCh_notSep d hlt
  rcases hc with h | h | h <;> rw [← hdc] at h <;> [exact h1 h; exact h2 h; exact h3 h]

/-- `'-'` never occurs in a percentage rendering. -/
theorem dash_not_mem_pctRepr (q : ℚ) : '-' ∉ pctRepr q := by
  unfold pctRepr
  intro hmem
  rcases List.mem_append.mp hmem with h | h
  · rcases List.mem_append.mp h with h' | h'
    · split at h' <;> simp_all
    · exact sep_not_mem_natDigitsStr _ (Or.inr (Or.inl rfl)) h'
  · rcases List.mem_cons.mp h with h' | h'
    · simp at h'
    · exact sep_not_mem_natDigitsStr _ (Or.inr (Or.inl rfl)) h'

/-- The percentage rendering is injective. -/
theorem pctRepr_inj {p q : ℚ} (h : pctRepr p = pctRepr q) : p = q := by
  unfold pctRepr at h
  have hsl : ∀ r : ℚ, ('/' : Char) ∉
      ((if r < 0 then ['n'] else []) ++ natDigitsStr r.num.natAbs : Str) := by
    intro r hmem
    rcases List.mem_append.mp hmem with h' | h'
    · split at h' <;> simp_all
    · exact sep_not_mem_natDigitsStr _ (Or.inl rfl) h'
  obtain ⟨hsign, hden⟩ := append_sep_inj _ _ (hsl p) (hsl q) h
  have hdeneq : p.den = q.den := natDigitsStr_inj hden
  have hnum : p.num = q.num := by
    by_cases hp : p < 0 <;> by_cases hq : q < 0
    · rw [if_pos hp, if_pos hq] at hsign
      have habs : p.num.natAbs = q.num.natAbs := by
        simp only [List.singleton_append, List.cons.injEq] at hsign
        exact natDigitsStr_inj hsign.2
      have hp' : p.num < 0 := Rat.num_neg.mpr hp
      have hq' : q.num < 0 := Rat.num_neg.mpr hq
      omega
    · exfalso
      rw [if_pos hp, if_neg hq] at hsign
      have : ('n' : Char) ∈ natDigitsStr q.num.natAbs := by
        rw [List.nil_append] at hsign
        rw [← hsign]
        simp
      exact sep_not_mem_natDigitsStr _ (Or.inr (Or.inr rfl)) this
    · exfalso
      rw [if_neg hp, if_pos hq] at hsign
      have : ('n' : Char) ∈ natDigitsStr p.num.natAbs := by
        rw [List.nil_append] at hsign
        rw [hsign]
        simp
      exact sep_not_mem_natDigitsStr _ (Or.inr (Or.inr rfl)) this
    · rw [if_neg hp, if_neg hq, List.nil_append, List.nil_append] at hsign
      have habs : p.num.natAbs = q.num.natAbs := natDigitsStr_inj hsign
      have hp' : ¬p.num < 0 := fun hc => hp (Rat.num_neg.mp hc)
      have hq' : ¬q.num < 0 := fun hc => hq (Rat.num_neg.mp hc)
      omega
  exact Rat.ext hnum hdeneq

/-! ### The record-shape invariant -/

/-- Shape invariant of every record the parser can produce: a non-negative
percentage, and a subject that either has at most 50 characters or is copied
verbatim (unstripped of its length) from a strong/b element of the
document. -/
def RecOk (root : Node) (r : Rec) : Prop :=
  0 ≤ r.percentage ∧
    (r.subject.length ≤ 50 ∨
      ∃ n, n ∈ descendants root ∧ (isTag "strong".data n || isTag "b".data n) = true ∧
        r.subject = getTextStrip [] n)

/-- The preceding-text subject is always at most 50 characters. -/
theorem m1PrevSubject_len (lastv : Option Str) : (m1PrevSubject lastv).length ≤ 50 := by
  unfold m1PrevSubject
  split
  · split
    · simp [List.length_take]
    · simp
  · simp

/-- The Method-1 subject is at most 50 characters or verbatim strong/b
text, provided the parent is the document or one of its descendants. -/
theorem m1Subject_ok {root parent : Node}
    (hpar : parent = root ∨ parent ∈ descendants root) (lastv : Option Str) :
    (m1Subject parent lastv).length ≤ 50 ∨
      ∃ n, n ∈ descendants root ∧ (isTag "strong".data n || isTag "b".data n) = true ∧
        m1Subject parent lastv = getTextStrip [] n := by
  unfold m1Subject
  cases hs : findFirstTags strongTags parent with
  | none => exact Or.inl (m1PrevSubject_len lastv)
  | some s =>
      dsimp only
      by_cases he : (getTextStrip [] s).isEmpty = true
      · rw [if_pos he]
        exact Or.inl (m1PrevSubject_len lastv)
      · rw [if_neg he]
        obtain ⟨hmem, htag⟩ := findFirstTags_mem hs
        refine Or.inr ⟨s, ?_, ?_, rfl⟩
        · rcases hpar with h | h
          · exact h ▸ hmem
          · exact desc_sub_node root parent h hmem
        · simpa [strongTags] using htag

/-- Any Method-1 record satisfies the shape invariant, provided its parent is
the document or one of its descendants. -/
theorem m1Record_recOk {root parent : Node}
    (hpar : parent = root ∨ parent ∈ descendants root) (lastv : Option Str) (tok : Str) :
    RecOk root ⟨m1Subject parent lastv, floatOfToken tok⟩ :=
  ⟨floatOfToken_nonneg tok, m1Subject_ok hpar lastv⟩

/-- One step of the Method-1 loop preserves the invariant on the
accumulator. -/
theorem m1Process_recOk {root parent self : Node} {st st' : M1State}
    (hpar : parent = root ∨ parent ∈ descendants root)
    (hacc : ∀ r ∈ st.acc, RecOk root r)
    (h : m1Process parent self st = .ok st') :
    ∀ r ∈ st'.acc, RecOk root r := by
  simp only [m1Process] at h
  split at h
  · cases h; exact hacc
  · split at h
    · split at h
      · cases h
      · cases h
        intro r hr
        rcases List.mem_append.mp hr with hmem | hmem
        · exact hacc r hmem
        · rw [List.mem_singleton.mp hmem]
          exact m1Record_recOk hpar st.last _
    · cases h; exact hacc

/-- The Method-1 traversal preserves the invariant: any state it returns has
only invariant-satisfying records. -/
theorem m1List_recOk (root : Node) :
    ∀ (ns : List Node) (parent : Node) (st st' : M1State),
      (parent = root ∨ parent ∈ descendants root) →
      (∀ n ∈ ns, n ∈ descendants root) →
      (∀ r ∈ st.acc, RecOk root r) →
      m1List parent st ns = .ok st' →
      ∀ r ∈ st'.acc, RecOk root r :=
  fun ns =>
  match ns with
  | [] => by
      intro parent st st' _ _ hacc h
      rw [m1List] at h
      cases h
      exact hacc
  | n :: rest => by
      intro parent st st' hpar hns hacc h
      rw [m1List] at h
      cases hstep : m1Node parent st n with
      | error e => rw [hstep] at h; cases h
      | ok st1 =>
          rw [hstep] at h
          have hn : n ∈ descendants root := hns n (List.mem_cons_self n rest)
          have hacc1 : ∀ r ∈ st1.acc, RecOk root r := by
            cases n with
            | text s =>
                rw [m1Node] at hstep
                cases hstep
                exact hacc
            | elem tag attrs cs =>
                rw [m1Node] at hstep
                cases hproc : (if m1Tags.any (fun t => t = tag) then
                    m1Process parent (.elem tag attrs cs) st else .ok st) with
                | error e => rw [hproc] at hstep; cases hstep
                | ok st2 =>
                    rw [hproc] at hstep
                    have hacc2 : ∀ r ∈ st2.acc, RecOk root r := by
                      by_cases htag : m1Tags.any (fun t => t = tag) = true
                      · rw [if_pos htag] at hproc
                        exact m1Process_recOk hpar hacc hproc
                      · rw [if_neg htag] at hproc
                        cases hproc
                        exact hacc
                    exact m1List_recOk root cs (.elem tag attrs cs) st2 st1
                      (Or.inr hn)
                      (fun c hc => desc_sub_node root _ hn
                        (children_mem_descendants _ c hc))
                      hacc2 hstep
          exact m1List_recOk root rest parent st1 st' hpar
            (fun x hx => hns x (List.mem_cons_of_mem n hx)) hacc1 h

/-- Every Method-1 record satisfies the shape invariant. -/
theorem method1_recOk {root : Node} {l : List Rec}
    (h : method1Recs root = .ok l) : ∀ r ∈ l, RecOk root r := by
  unfold method1Recs at h
  cases hm : m1List root { last := none, acc := [] } root.childrenOf with
  | error e => rw [hm] at h; cases h
  | ok st =>
      rw [hm] at h
      cases h
      exact m1List_recOk root root.childrenOf root _ st (Or.inl rfl)
        (children_mem_descendants root) (by simp) hm

/-- Every Method-2 record satisfies the shape invariant. -/
theorem method2_recOk (root : Node) : ∀ r ∈ method2Recs root, RecOk root r := by
  intro r hr
  unfold method2Recs at hr
  rw [List.mem_flatMap] at hr
  obtain ⟨table, _, hr⟩ := hr
  rw [List.mem_filterMap] at hr
  obtain ⟨row, _, hrow⟩ := hr
  simp only [rowRec] at hrow
  split at hrow
  · split at hrow
    · obtain ⟨tok, _, htok⟩ := Option.map_eq_some'.mp hrow
      rw [← htok]
      exact ⟨floatOfToken_nonneg tok, Or.inl (by simp [List.length_take])⟩
    · cases hrow
  · cases hrow

/-- Every Method-3 record satisfies the shape invariant. -/
theorem method3_recOk (root : Node) : ∀ r ∈ method3Recs root, RecOk root r := by
  intro r hr
  unfold method3Recs at hr
  obtain ⟨p, _, hp⟩ := List.mem_map.mp hr
  rw [← hp]
  exact ⟨floatOfToken_nonneg p.2, Or.inl (by simp [List.length_take])⟩

/-- Every raw candidate satisfies the shape invariant. -/
theorem rawRecs_recOk {root : Node} {l : List Rec}
    (h : rawRecs root = .ok l) : ∀ r ∈ l, RecOk root r := by
  unfold rawRecs at h
  cases hm : method1Recs root with
  | error e => rw [hm] at h; cases h
  | ok d1 =>
      rw [hm] at h
      dsimp only at h
      by_cases h1 : d1 ≠ []
      · rw [if_pos h1] at h
        cases h
        exact method1_recOk hm
      · rw [if_neg h1] at h
        by_cases h2 : method2Recs root ≠ []
        · rw [if_pos h2] at h
          cases h
          exact method2_recOk root
        · rw [if_neg h2] at h
          cases h
          exact method3_recOk root

/-- Every record in the final extraction result satisfies the shape
invariant. -/
theorem extraction_recOk {root : Node} {l : List Rec}
    (h : extractionRecords root = .ok (some l)) : ∀ r ∈ l, RecOk root r := by
  unfold extractionRecords at h
  cases hr : rawRecs root with
  | error e => rw [hr] at h; cases h
  | ok raw =>
      rw [hr] at h
      dsimp only at h
      by_cases hre : raw = []
      · rw [if_pos hre] at h
        cases h
      · rw [if_neg hre] at h
        cases h
        intro r hmem
        have hsub : ((dedupKeyed recKey raw).take 20).Sublist raw :=
          (List.take_sublist 20 _).trans (dedupKeyedGo_sublist recKey raw [])
        exact rawRecs_recOk hr r (hsub.mem hmem)

/-- The dedup key `f"{subject}-{percentage}"` is injective on records. -/
theorem recKey_inj {a b : Rec} (h : recKey a = recKey b) : a = b := by
  unfold recKey at h
  have h' := congrArg List.reverse h
  simp only [List.reverse_append, List.reverse_cons] at h'
  rw [List.append_assoc, List.append_assoc] at h'
  simp only [List.singleton_append] at h'
  have hnd : ∀ r : Rec, ('-' : Char) ∉ (pctRepr r.percentage).reverse := by
    intro r hmem
    exact dash_not_mem_pctRepr r.percentage (List.mem_reverse.mp hmem)
  obtain ⟨hpct, hsub⟩ := append_sep_inj _ _ (hnd a) (hnd b) h'
  have h1 : a.percentage = b.percentage :=
    pctRepr_inj (List.reverse_injective hpct)
  have h2 : a.subject = b.subject := List.reverse_injective hsub
  cases a; cases b
  simp_all

/-! ## Fixtures for witnesses and counterexamples -/

/-- A document root (the BeautifulSoup object) with the given children. -/
def docNode (cs : List Node) : Node :=
  .elem "[document]".data [] cs

/-- A page with a decoy out-of-range number: `<div>Math 404%</div>`. -/
def fix404 : Node :=
  docNode [.elem "div".data [] [.text "Math 404%".data]]

/-- A page whose bold subject has 51 characters. -/
def fixStrong51 : Node :=
  docNode [.elem "div".data []
    [.elem "b".data [] [.text (List.replicate 51 'a')],
     .elem "span".data [] [.text "attendance 75%".data]]]

/-- A page where Method 1 fires: `<div>Math 80%</div>`. -/
def fixM1div : Node :=
  docNode [.elem "div".data [] [.text "Math 80%".data]]

/-- A page where only Method 2 fires (cells carry no `%` and no digits meet
the Method-1 acceptance condition). -/
def fixM2table : Node :=
  docNode [.elem "table".data []
    [.elem "tr".data [] [.elem "th".data [] [.text "S".data],
                         .elem "th".data [] [.text "P".data]],
     .elem "tr".data [] [.elem "td".data [] [.text "Maths".data],
                         .elem "td".data [] [.text "82".data]]]]

/-- A page where only Method 3 fires (bare text, no elements, no tables). -/
def fixM3text : Node :=
  docNode [.text "Abcd: 77 %".data]

/-- A page producing the same record twice (both divs parse to
`(Subject, 80)`). -/
def fixDup : Node :=
  docNode [.elem "div".data [] [.text "80%".data],
           .elem "div".data [] [.text "80%".data]]

/-- A page with an element whose text contains the word "attendance" but no
digit — the crash input of C10. -/
def fixAttendanceNoDigit : Node :=
  docNode [.elem "span".data [] [.text "attendance report".data]]

/-- A fixed configuration for concrete runs. -/
def cfgFix : Config :=
  ⟨"https://mgit.winnou.net".data, "user".data, "01-Jan-2026 09:00 AM".data,
   some "whatsapp:dev".data⟩

/-- A successful HTTP response with the given tree and raw text. -/
def pageResp (dom : Node) (raw : Str) : HttpResp :=
  ⟨200, raw, dom, "https://mgit.winnou.net/x".data⟩

/-- A first-page response holding a login form. -/
def r0Form : FetchR :=
  .ok (pageResp (docNode [.elem "form".data [] []]) "hello".data)

/-- A run whose attendance page is the C10 crash input. -/
def envNoDigit : Env :=
  ⟨false, none, r0Form, fun _ => some 200,
   .ok (pageResp (docNode []) "welcome".data),
   .ok (pageResp fixAttendanceNoDigit "page".data)⟩

/-- A run whose login response body contains "INVALID". -/
def envInvalidLogin : Env :=
  ⟨false, none, r0Form, fun _ => some 200,
   .ok (pageResp (docNode []) "INVALID credentials".data),
   .ok (pageResp (docNode []) "page".data)⟩

/-- A run whose login response body contains "captcha" but none of the
code's keywords. -/
def envCaptchaLogin : Env :=
  ⟨false, none, r0Form, fun _ => some 200,
   .ok (pageResp (docNode []) "please complete the captcha challenge".data),
   .ok (pageResp (docNode []) "page".data)⟩

/-- A run whose first request times out. -/
def envTimeoutRun : Env :=
  ⟨false, none, .timeout, fun _ => none, .timeout, .timeout⟩

/-! ## The claims -/

/-- C1 (amended): every percentage in the `ExtractionResult` is
non-negative; but the claimed `[0, 100]` range does not hold — the code has
no range filter, and a decoy numeric token such as `404` is not discarded
(see `percentage_range_counterexample`). -/
theorem extraction_percentages_nonneg (root : Node) (l : List Rec)
    (h : extractionRecords root = .ok (some l)) :
    ∀ r ∈ l, 0 ≤ r.percentage :=
  fun r hr => (extraction_recOk h r hr).1

/-- Witness for C1's theorem at the concrete page `fix404`. -/
theorem extraction_percentages_nonneg_witness :
    0 ≤ (Rec.mk "Subject".data 404).percentage :=
  extraction_percentages_nonneg fix404 [⟨"Subject".data, 404⟩] (by decide)
    ⟨"Subject".data, 404⟩ (List.mem_singleton.mpr rfl)

/-- C1 counterexample: the decoy token `404` (outside `[0, 100]`) is not
discarded at parsing — it produces a record with percentage `404`. -/
theorem percentage_range_counterexample :
    extractionRecords fix404 = .ok (some [⟨"Subject".data, 404⟩]) ∧
      ¬((Rec.mk "Subject".data 404).percentage ≤ 100) := by
  decide

/-- C9 (amended): every subject in the `ExtractionResult` has at most 50
characters or is copied verbatim (without truncation) from the
`get_text(strip=True)` of a strong/b element of the page; the bold-subject
path of Method 1 does not truncate, so 50 can be exceeded (see
`strong_subject_counterexample`). -/
theorem subject_le50_or_strong (root : Node) (l : List Rec)
    (h : extractionRecords root = .ok (some l)) :
    ∀ r ∈ l, r.subject.length ≤ 50 ∨
      ∃ n, n ∈ descendants root ∧ (isTag "strong".data n || isTag "b".data n) = true ∧
        r.subject = getTextStrip [] n :=
  fun r hr => (extraction_recOk h r hr).2

/-- Witness for C9's theorem at the concrete page `fix404`. -/
theorem subject_le50_or_strong_witness :
    (Rec.mk "Subject".data 404).subject.length ≤ 50 ∨
      ∃ n, n ∈ descendants fix404 ∧ (isTag "strong".data n || isTag "b".data n) = true ∧
        (Rec.mk "Subject".data 404).subject = getTextStrip [] n :=
  subject_le50_or_strong fix404 [⟨"Subject".data, 404⟩] (by decide)
    ⟨"Subject".data, 404⟩ (List.mem_singleton.mpr rfl)

/-- C9 counterexample: a 51-character bold element becomes a 51-character
subject — the strong/b inference path copies the text untruncated. -/
theorem strong_subject_counterexample :
    extractionRecords fixStrong51 = .ok (some [⟨List.replicate 51 'a', 75⟩]) ∧
      ¬((Rec.mk (List.replicate 51 'a') 75).subject.length ≤ 50) := by
  decide

/-- C3 (confirmed): the three strategies run in strict order and the first
one producing at least one record supplies the raw candidates — Method 2 is
consulted only when Method 1 returned no records, Method 3 only when both
returned none. -/
theorem strategy_order_first_wins (root : Node) :
    (∀ l, method1Recs root = .ok l → l ≠ [] → rawRecs root = .ok l) ∧
    (method1Recs root = .ok [] → method2Recs root ≠ [] →
      rawRecs root = .ok (method2Recs root)) ∧
    (method1Recs root = .ok [] → method2Recs root = [] →
      rawRecs root = .ok (method3Recs root)) := by
  refine ⟨?_, ?_, ?_⟩
  · intro l h hne
    unfold rawRecs
    rw [h]
    dsimp only
    rw [if_pos hne]
  · intro h1 h2
    unfold rawRecs
    rw [h1]
    dsimp only
    rw [if_neg (by simp), if_pos h2]
  · intro h1 h2
    unfold rawRecs
    rw [h1]
    dsimp only
    rw [if_neg (by simp), if_neg (by simp [h2])]

/-- Witness for C3's theorem: each of the three branches at a concrete
page. -/
theorem strategy_order_first_wins_witness :
    rawRecs fixM1div = .ok [⟨"Subject".data, 80⟩] ∧
    rawRecs fixM2table = .ok (method2Recs fixM2table) ∧
    rawRecs fixM3text = .ok (method3Recs fixM3text) :=
  ⟨(strategy_order_first_wins fixM1div).1 [⟨"Subject".data, 80⟩] (by decide) (by decide),
   (strategy_order_first_wins fixM2table).2.1 (by decide) (by decide),
   (strategy_order_first_wins fixM3text).2.2 (by decide) (by decide)⟩

/-- The spec-side deduplication: by the (subject, percentage) pair itself. -/
def dedupByPair (l : List Rec) : List Rec :=
  dedupKeyed (fun r => (r.subject, r.percentage)) l

/-- The code's string-keyed dedup equals pair dedup (the key rendering is
injective and its separator cannot be confused with subject content). -/
theorem dedup_key_eq_pair (l : List Rec) :
    dedupKeyed recKey l = dedupByPair l := by
  unfold dedupKeyed dedupByPair
  apply dedupKeyedGo_congr
  · intro a b
    constructor
    · intro h
      rw [recKey_inj h]
    · intro h
      have h1 : a.subject = b.subject := by simpa using congrArg Prod.fst h
      have h2 : a.percentage = b.percentage := by simpa using congrArg Prod.snd h
      have hab : a = b := by
        cases a; cases b; simp_all
      rw [hab]
  · intro r
    simp

/-- C4 (confirmed): whatever raw candidate list a strategy produced, the
final records are exactly that list deduplicated by the
(subject, percentage) pair keeping first occurrences in first-seen order,
then truncated to at most 20 — so the result has at most 20 records and is
an order-preserving sublist of the raw candidates. -/
theorem postprocess_dedup_truncate (root : Node) (raw : List Rec)
    (hraw : rawRecs root = .ok raw) (hne : raw ≠ []) :
    extractionRecords root = .ok (some ((dedupByPair raw).take 20)) ∧
      ((dedupByPair raw).take 20).length ≤ 20 ∧
      ((dedupByPair raw).take 20).Sublist raw := by
  refine ⟨?_, ?_, ?_⟩
  · unfold extractionRecords
    rw [hraw]
    dsimp only
    rw [if_neg hne, dedup_key_eq_pair]
  · rw [List.length_take]
    exact inf_le_left
  · exact (List.take_sublist 20 _).trans (dedupKeyedGo_sublist _ raw [])

/-- Witness for C4's theorem: the duplicated `(Subject, 80)` pair collapses
to one record. -/
theorem postprocess_dedup_truncate_witness :
    extractionRecords fixDup =
      .ok (some ((dedupByPair [⟨"Subject".data, 80⟩, ⟨"Subject".data, 80⟩]).take 20)) :=
  (postprocess_dedup_truncate fixDup [⟨"Subject".data, 80⟩, ⟨"Subject".data, 80⟩]
    (by decide) (by decide)).1

/-- C7 (confirmed): the report tier is `✅` ("good") exactly when the
percentage is at least 75, `⚠️` ("warn") exactly when it is in `[65, 75)`,
and `🔴` ("critical") exactly when it is below 65. -/
theorem tier_boundaries (p : ℚ) :
    (emojiFor p = "✅".data ↔ 75 ≤ p) ∧
    (emojiFor p = "⚠️".data ↔ 65 ≤ p ∧ p < 75) ∧
    (emojiFor p = "🔴".data ↔ p < 65) := by
  unfold emojiFor
  by_cases h1 : (75 : ℚ) ≤ p
  · rw [if_pos h1]
    exact ⟨⟨fun _ => h1, fun _ => rfl⟩,
      ⟨fun h => absurd h (by decide), fun h => absurd h1 (not_le.mpr h.2)⟩,
      ⟨fun h => absurd h (by decide),
       fun h => absurd h1 (not_le.mpr (h.trans_le (by norm_num)))⟩⟩
  · rw [if_neg h1]
    by_cases h2 : (65 : ℚ) ≤ p
    · rw [if_pos h2]
      exact ⟨⟨fun h => absurd h (by decide), fun h => absurd h h1⟩,
        ⟨fun _ => ⟨h2, not_le.mp h1⟩, fun _ => rfl⟩,
        ⟨fun h => absurd h (by decide), fun h => absurd h (not_lt.mpr h2)⟩⟩
    · rw [if_neg h2]
      exact ⟨⟨fun h => absurd h (by decide), fun h => absurd h h1⟩,
        ⟨fun h => absurd h (by decide), fun h => absurd h.1 h2⟩,
        ⟨fun _ => not_le.mp h2, fun _ => rfl⟩⟩

/-- Witness for C7's theorem: 75.0 is good, 74.9 warns, 64.9 is critical. -/
theorem tier_boundaries_witness :
    emojiFor 75 = "✅".data ∧ emojiFor (749 / 10) = "⚠️".data ∧
      emojiFor (649 / 10) = "🔴".data :=
  ⟨(tier_boundaries 75).1.mpr (by norm_num),
   (tier_boundaries (749 / 10)).2.1.mpr (by norm_num),
   (tier_boundaries (649 / 10)).2.2.mpr (by norm_num)⟩

/-- C10 (confirmed): on an element whose text contains the word "attendance"
but no digit, the Method-1 acceptance condition holds while the numeric
match is `None`, so `float(pct_match.group(1))` raises; through
`get_attendance` the broad `except` maps this to the generic
`"❌ Error: ..."` message (status `unexpected`), after the attendance page
was fetched. -/
theorem attendance_word_without_digit_raises :
    parseAttendanceHtml "user".data "now".data fixAttendanceNoDigit = .error noneGroupErr ∧
    getAttendance cfgFix envNoDigit =
      { message := exnMsg noneGroupErr, status := .unexpected, attFetched := true } := by
  decide

/-- C2 (amended): the code's failure vocabulary is `("invalid",
"incorrect", "unauthorized", "login failed", "error")` — not the claimed
list with "captcha" and "please login".  When the login POST response (with
status < 400, reached through the requests path after a 200 first page)
contains any of the code's keywords case-insensitively — in particular the
substring "Invalid credentials" in any case — the run returns the
login-failed message with status `login_failed` and the attendance page is
never fetched. -/
theorem login_keyword_shortcircuit (cfg : Config) (env : Env) (r0 lr : HttpResp)
    (hsel : env.useSelenium = false) (h0 : env.r0 = .ok r0) (h0s : r0.status = 200)
    (hl : env.login = .ok lr) (hls : lr.status < 400)
    (hkw : loginFailKeywords.any (fun k => containsSub (lowerStr lr.raw) k) = true) :
    getAttendance cfg env =
      { message := loginFailedMsg, status := .loginFailed, attFetched := false } := by
  unfold getAttendance
  rw [hsel]
  rw [if_neg (by decide : ¬(false = true))]
  unfold requestsPath
  rw [h0]
  dsimp only
  rw [if_neg (by simp [h0s]), hl]
  dsimp only
  rw [if_neg (by omega), if_pos hkw]

/-- Witness for C2's theorem: a login body containing "INVALID". -/
theorem login_keyword_shortcircuit_witness :
    getAttendance cfgFix envInvalidLogin =
      { message := loginFailedMsg, status := .loginFailed, attFetched := false } :=
  login_keyword_shortcircuit cfgFix envInvalidLogin
    (pageResp (docNode [.elem "form".data [] []]) "hello".data)
    (pageResp (docNode []) "INVALID credentials".data)
    rfl rfl rfl rfl (by decide) (by decide)

/-- C2 counterexample: "captcha" belongs to the claimed vocabulary but not
to the code's — a login body containing it does not end the run as
login_failed, and the attendance fetch still happens. -/
theorem captcha_not_detected_counterexample :
    containsSub (lowerStr "please complete the captcha challenge".data) "captcha".data
        = true ∧
      (getAttendance cfgFix envCaptchaLogin).attFetched = true ∧
      (getAttendance cfgFix envCaptchaLogin).status ≠ .loginFailed := by
  decide

/-- A message with a recognised error prefix is never routed to the
student's number. -/
theorem dispatch_not_primary {cfg : Config} {msg p : Str}
    (hp : p ∈ errorPrefixes) (hpre : p <+: msg) :
    dispatch cfg msg ≠ .toPrimary := by
  unfold dispatch
  have hany : (errorPrefixes.any fun q => q.isPrefixOf msg) = true :=
    List.any_eq_true.mpr ⟨p, hp, List.isPrefixOf_iff_prefix.mpr hpre⟩
  rw [if_pos hany]
  cases cfg.devNumber <;> simp

/-- Every branch of the requests path either ends `ok` or returns a message
starting with one of `main`'s `error_prefixes`. -/
theorem requestsPath_ok_or_prefixed (cfg : Config) (env : Env) :
    (requestsPath cfg env).status = .ok ∨
      ∃ p ∈ errorPrefixes, p <+: (requestsPath cfg env).message := by
  have hiso : ∀ {p q : Str}, p.isPrefixOf q = true → p <+: q :=
    fun h => List.isPrefixOf_iff_prefix.mp h
  unfold requestsPath
  cases h0 : env.r0 with
  | timeout =>
      dsimp only
      exact Or.inr ⟨"⏱️".data, by decide, hiso (by decide)⟩
  | connErr =>
      dsimp only
      exact Or.inr ⟨"🌐".data, by decide, hiso (by decide)⟩
  | exn e =>
      dsimp only
      exact Or.inr ⟨"❌".data, by decide, (by simp only [exnMsg, List.append_assoc]; exact pre_app _ _ (hiso (by decide)))⟩
  | ok r0 =>
      dsimp only
      by_cases hst : r0.status ≠ 200
      · rw [if_pos hst]
        exact Or.inr ⟨"❌".data, by decide, (by simp only [exnMsg, List.append_assoc]; exact pre_app _ _ (hiso (by decide)))⟩
      · rw [if_neg hst]
        cases hl : env.login with
        | timeout =>
            dsimp only
            exact Or.inr ⟨"⏱️".data, by decide, hiso (by decide)⟩
        | connErr =>
            dsimp only
            exact Or.inr ⟨"🌐".data, by decide, hiso (by decide)⟩
        | exn e =>
            dsimp only
            exact Or.inr ⟨"❌".data, by decide, (by simp only [exnMsg, List.append_assoc]; exact pre_app _ _ (hiso (by decide)))⟩
        | ok lr =>
            dsimp only
            by_cases hpost : 400 ≤ lr.status
            · rw [if_pos hpost]
              exact Or.inr ⟨"❌".data, by decide, (by simp only [exnMsg, List.append_assoc]; exact pre_app _ _ (hiso (by decide)))⟩
            · rw [if_neg hpost]
              by_cases hkw :
                  loginFailKeywords.any (fun k => containsSub (lowerStr lr.raw) k) = true
              · rw [if_pos hkw]
                exact Or.inr ⟨"❌".data, by decide, hiso (by decide)⟩
              · rw [if_neg hkw]
                cases hatt : env.att with
                | timeout =>
                    dsimp only
                    exact Or.inr ⟨"⏱️".data, by decide, hiso (by decide)⟩
                | connErr =>
                    dsimp only
                    exact Or.inr ⟨"🌐".data, by decide, hiso (by decide)⟩
                | exn e =>
                    dsimp only
                    exact Or.inr ⟨"❌".data, by decide, (by simp only [exnMsg, List.append_assoc]; exact pre_app _ _ (hiso (by decide)))⟩
                | ok ar =>
                    dsimp only
                    by_cases h404 : ar.status = 404
                    · rw [if_pos h404]
                      by_cases heps : findEndpoints (lr.raw ++ ar.raw) ≠ []
                      · rw [if_pos heps]
                        exact Or.inr ⟨"❌".data, by decide, (by simp only [exnMsg, List.append_assoc]; exact pre_app _ _ (hiso (by decide)))⟩
                      · rw [if_neg heps]
                        exact Or.inr ⟨"❌".data, by decide, hiso (by decide)⟩
                    · rw [if_neg h404]
                      by_cases h200 : ar.status ≠ 200
                      · rw [if_pos h200]
                        exact Or.inr ⟨"❌".data, by decide, (by simp only [exnMsg, List.append_assoc]; exact pre_app _ _ (hiso (by decide)))⟩
                      · rw [if_neg h200]
                        cases hx : extractionRecords ar.dom with
                        | error e =>
                            dsimp only
                            exact Or.inr ⟨"❌".data, by decide, (by simp only [exnMsg, List.append_assoc]; exact pre_app _ _ (hiso (by decide)))⟩
                        | ok o =>
                            cases o with
                            | some recs => exact Or.inl rfl
                            | none =>
                                dsimp only
                                exact Or.inr ⟨"⚠️ Could not extract".data, by decide,
                                  hiso (by decide)⟩

/-- Every run either ends `ok` or returns a message starting with one of
`main`'s `error_prefixes`. -/
theorem getAttendance_ok_or_prefixed (cfg : Config) (env : Env) :
    (getAttendance cfg env).status = .ok ∨
      ∃ p ∈ errorPrefixes, p <+: (getAttendance cfg env).message := by
  unfold getAttendance
  by_cases hsel : env.useSelenium = true
  · rw [if_pos hsel]
    cases hdom : env.seleniumHtml with
    | none =>
        dsimp only
        exact requestsPath_ok_or_prefixed cfg env
    | some dom =>
        dsimp only
        cases hx : extractionRecords dom with
        | error e =>
            dsimp only
            exact requestsPath_ok_or_prefixed cfg env
        | ok o =>
            cases o with
            | some recs => exact Or.inl rfl
            | none =>
                dsimp only
                exact Or.inr ⟨"⚠️ Could not extract".data, by decide,
                  List.isPrefixOf_iff_prefix.mp (by decide)⟩
  · rw [if_neg hsel]
    exact requestsPath_ok_or_prefixed cfg env

/-- C5 (confirmed): a run whose status is anything other than `ok` is never
dispatched to the student's number — `main` either suppresses the message or
sends it to the developer number only. -/
theorem nonok_never_primary (cfg : Config) (env : Env)
    (h : (getAttendance cfg env).status ≠ .ok) :
    dispatch cfg (getAttendance cfg env).message ≠ .toPrimary := by
  rcases getAttendance_ok_or_prefixed cfg env with hok | ⟨p, hp, hpre⟩
  · exact absurd hok h
  · exact dispatch_not_primary hp hpre

/-- Witness for C5's theorem: a timed-out run is not sent to the student. -/
theorem nonok_never_primary_witness :
    dispatch cfgFix (getAttendance cfgFix envTimeoutRun).message ≠ .toPrimary :=
  nonok_never_primary cfgFix envTimeoutRun (by decide)

/-- A table cell holding one text node. -/
def tdCell (s : Str) : Node :=
  .elem "td".data [] [.text s]

/-- A data row `<tr><td>s</td><td>82%</td></tr>`. -/
def row82 (s : Str) : Node :=
  .elem "tr".data [] [tdCell s, tdCell "82%".data]

/-- A header cell holding one text node. -/
def thCell (s : Str) : Node :=
  .elem "th".data [] [.text s]

/-- A header row of th cells with the given texts. -/
def headerRowOf (hdr : List Str) : Node :=
  .elem "tr".data [] (hdr.map thCell)

/-- The table of the claim's fixture family: a header row with the given
cell texts, and one data row per subject with "82%" in the last column. -/
def tableNode82 (hdr rows : List Str) : Node :=
  .elem "table".data [] (headerRowOf hdr :: rows.map row82)

/-- The claimed fixture: a document holding such a table. -/
def docTable82 (hdr rows : List Str) : Node :=
  docNode [tableNode82 hdr rows]

/-- Side conditions on a first-column text under which the element scan
treats it as a plain label: non-empty, already stripped, at most 50
characters, not starting with a digit, containing no `%` character and no
standalone word "attendance". -/
def GoodLabel (s : Str) : Prop :=
  s ≠ [] ∧ trimStr s = s ∧ s.length ≤ 50 ∧ s.head?.any isDigitChar = false ∧
    s.contains '%' = false ∧ attendanceWord s = false

instance (s : Str) : Decidable (GoodLabel s) := by
  unfold GoodLabel
  infer_instance

/-- Side conditions on a header-cell text under which the element scan is
inert on that cell: already stripped, containing no `%` character and no
standalone word "attendance".  These conditions are necessary: th cells are
in the element scan's tag list too, so a digit-free header cell containing
the word "attendance" makes the parse raise, and a header cell such as
"90%" injects a record of its own. -/
def InertLabel (s : Str) : Prop :=
  trimStr s = s ∧ s.contains '%' = false ∧ attendanceWord s = false

instance (s : Str) : Decidable (InertLabel s) := by
  unfold InertLabel
  infer_instance

/-- The empty sibling list ends the walk with the current state. -/
theorem m1List_nil (parent : Node) (st : M1State) : m1List parent st [] = .ok st :=
  rfl

/-- A single-text-node cell's text is its (stripped) string. -/
theorem getTextStrip_td {s : Str} (h1 : trimStr s = s) (h2 : s ≠ []) :
    getTextStrip [' '] (tdCell s) = s := by
  unfold getTextStrip tdCell
  simp only [collectTexts, collectTextsList, List.append_nil, List.map_cons, List.map_nil, h1]
  rw [List.filter_cons_of_pos (by simpa using h2)]
  simp [List.intercalate]

/-- The element scan skips a good-label cell: no `%`, no "attendance". -/
theorem m1Process_label {parent : Node} {s : Str} (h : GoodLabel s) (st : M1State) :
    m1Process parent (tdCell s) st = .ok st := by
  obtain ⟨h1, h2, _, _, h5, h6⟩ := h
  simp only [m1Process]
  rw [getTextStrip_td h2 h1]
  by_cases hlen : s.length > 400
  · rw [if_pos (by simp [hlen])]
  · rw [if_neg (by simp [h1, hlen])]
    rw [h5, h6]
    rw [if_neg (by simp)]

/-- The subject inferred for the 82%-cell of a data row is the first
column's text: the row holds no strong/b element and the preceding text node
is the first column. -/
theorem m1Subject_row82 {s : Str} (h1 : s ≠ []) (h2 : trimStr s = s)
    (h3 : s.length ≤ 50) (h4 : s.head?.any isDigitChar = false) :
    m1Subject (row82 s) (some s) = s := by
  have hstrong : findFirstTags strongTags (row82 s) = none := rfl
  unfold m1Subject
  rw [hstrong]
  dsimp only
  unfold m1PrevSubject
  dsimp only
  rw [h2]
  rw [if_pos (by simp [h1, h4])]
  exact List.take_of_length_le h3

/-- Processing the 82%-cell appends exactly the record `(s, 82)`. -/
theorem m1Process_td82 {s : Str} (h : GoodLabel s) (acc : List Rec) :
    m1Process (row82 s) (tdCell "82%".data) ⟨some s, acc⟩ =
      .ok ⟨some s, acc ++ [⟨s, 82⟩]⟩ := by
  obtain ⟨h1, h2, h3, h4, _, _⟩ := h
  have htext : getTextStrip [' '] (tdCell "82%".data) = "82%".data := rfl
  simp only [m1Process]
  rw [htext]
  rw [if_neg (by decide)]
  rw [if_pos (by decide)]
  rw [show m1Token "82%".data = some "82".data from rfl]
  dsimp only
  rw [m1Subject_row82 h1 h2 h3 h4]
  rw [show floatOfToken "82".data = (82 : ℚ) from by decide]

/-- Walking one data row (from any parent and any incoming `last`) appends
exactly the record `(s, 82)` and leaves `"82%"` as the last seen string. -/
theorem m1Node_row82 {s : Str} (h : GoodLabel s) (parent : Node)
    (last0 : Option Str) (acc : List Rec) :
    m1Node parent ⟨last0, acc⟩ (row82 s) = .ok ⟨some "82%".data, acc ++ [⟨s, 82⟩]⟩ := by
  have e1 : m1Node parent ⟨last0, acc⟩ (row82 s) =
      match m1Node (row82 s) ⟨last0, acc⟩ (tdCell s) with
      | .error e => .error e
      | .ok st1 => m1List (row82 s) st1 [tdCell "82%".data] := rfl
  have e2 : m1Node (row82 s) ⟨last0, acc⟩ (tdCell s) = .ok ⟨some s, acc⟩ := by
    have estep : m1Node (row82 s) ⟨last0, acc⟩ (tdCell s) =
        match m1Process (row82 s) (tdCell s) ⟨last0, acc⟩ with
        | .error e => .error e
        | .ok st1 => m1List (tdCell s) st1 [.text s] := rfl
    rw [estep, m1Process_label h]
    rfl
  have e3 : m1Node (row82 s) ⟨some s, acc⟩ (tdCell "82%".data) =
      .ok ⟨some "82%".data, acc ++ [⟨s, 82⟩]⟩ := by
    have estep : m1Node (row82 s) ⟨some s, acc⟩ (tdCell "82%".data) =
        match m1Process (row82 s) (tdCell "82%".data) ⟨some s, acc⟩ with
        | .error e => .error e
        | .ok st1 => m1List (tdCell "82%".data) st1 [.text "82%".data] := rfl
    rw [estep, m1Process_td82 h]
    rfl
  have e4 : m1List (row82 s) ⟨some s, acc⟩ [tdCell "82%".data] =
      match m1Node (row82 s) ⟨some s, acc⟩ (tdCell "82%".data) with
      | .error e => .error e
      | .ok st1 => m1List (row82 s) st1 [] := rfl
  rw [e1, e2]
  dsimp only
  rw [e4, e3]
  rfl

/-- Walking the data rows appends one `(s, 82)` record per row, in order. -/
theorem m1List_rows82 : ∀ (rows : List Str), (∀ s ∈ rows, GoodLabel s) →
    ∀ (parent : Node) (last0 : Option Str) (acc : List Rec),
      m1List parent ⟨last0, acc⟩ (rows.map row82) =
        .ok ⟨(if rows = [] then last0 else some "82%".data),
             acc ++ rows.map (fun s => ⟨s, 82⟩)⟩ := by
  intro rows
  induction rows with
  | nil =>
      intro _ parent last0 acc
      simp [m1List_nil]
  | cons s rest ih =>
      intro hall parent last0 acc
      rw [List.map_cons]
      rw [show m1List parent ⟨last0, acc⟩ (row82 s :: rest.map row82) =
          match m1Node parent ⟨last0, acc⟩ (row82 s) with
          | .error e => .error e
          | .ok st1 => m1List parent st1 (rest.map row82) from rfl]
      rw [m1Node_row82 (hall s (List.mem_cons_self s rest)) parent last0 acc]
      dsimp only
      rw [ih (fun x hx => hall x (List.mem_cons_of_mem s hx)) parent
        (some ['8', '2', '%']) (acc ++ [(⟨s, 82⟩ : Rec)])]
      rw [show (if rest = [] then (some ['8', '2', '%'] : Option Str)
          else some "82%".data) = some ['8', '2', '%'] from by cases rest <;> rfl]
      rw [if_neg (by simp), List.append_assoc, List.singleton_append, List.map_cons]

/-- A single-text-node header cell's text is its (stripped) string. -/
theorem getTextStrip_th {s : Str} (h1 : trimStr s = s) (h2 : s ≠ []) :
    getTextStrip [' '] (thCell s) = s := by
  unfold getTextStrip thCell
  simp only [collectTexts, collectTextsList, List.append_nil, List.map_cons, List.map_nil, h1]
  rw [List.filter_cons_of_pos (by simpa using h2)]
  simp [List.intercalate]

/-- The element scan skips an inert header cell: no `%`, no "attendance". -/
theorem m1Process_th {parent : Node} {s : Str} (h : InertLabel s) (st : M1State) :
    m1Process parent (thCell s) st = .ok st := by
  obtain ⟨h2, h5, h6⟩ := h
  by_cases h1 : s = []
  · subst h1
    rfl
  · simp only [m1Process]
    rw [getTextStrip_th h2 h1]
    by_cases hlen : s.length > 400
    · rw [if_pos (by simp [hlen])]
    · rw [if_neg (by simp [h1, hlen])]
      rw [h5, h6]
      rw [if_neg (by simp)]

/-- Walking a list of inert header cells only updates the last-seen string,
to the last cell's text. -/
theorem m1List_header : ∀ (hdr : List Str), (∀ h ∈ hdr, InertLabel h) →
    ∀ (parent : Node) (last0 : Option Str) (acc : List Rec),
      m1List parent ⟨last0, acc⟩ (hdr.map thCell) =
        .ok ⟨hdr.foldl (fun _ h => some h) last0, acc⟩ := by
  intro hdr
  induction hdr with
  | nil =>
      intro _ parent last0 acc
      simp [m1List_nil]
  | cons h rest ih =>
      intro hall parent last0 acc
      have hnode : m1Node parent ⟨last0, acc⟩ (thCell h) = .ok ⟨some h, acc⟩ := by
        have estep : m1Node parent ⟨last0, acc⟩ (thCell h) =
            match m1Process parent (thCell h) ⟨last0, acc⟩ with
            | .error e => .error e
            | .ok st1 => m1List (thCell h) st1 [.text h] := rfl
        rw [estep, m1Process_th (hall h (List.mem_cons_self h rest))]
        rfl
      rw [List.map_cons]
      rw [show m1List parent ⟨last0, acc⟩ (thCell h :: rest.map thCell) =
          match m1Node parent ⟨last0, acc⟩ (thCell h) with
          | .error e => .error e
          | .ok st1 => m1List parent st1 (rest.map thCell) from rfl]
      rw [hnode]
      dsimp only
      rw [ih (fun x hx => hall x (List.mem_cons_of_mem h hx)) parent (some h) acc]
      rw [List.foldl_cons]

/-- Walking a header row of inert cells only updates the last-seen
string. -/
theorem m1Node_headerRow (hdr : List Str) (hall : ∀ h ∈ hdr, InertLabel h)
    (parent : Node) (last0 : Option Str) (acc : List Rec) :
    m1Node parent ⟨last0, acc⟩ (headerRowOf hdr) =
      .ok ⟨hdr.foldl (fun _ h => some h) last0, acc⟩ := by
  have estep : m1Node parent ⟨last0, acc⟩ (headerRowOf hdr) =
      m1List (headerRowOf hdr) ⟨last0, acc⟩ (hdr.map thCell) := rfl
  rw [estep]
  exact m1List_header hdr hall (headerRowOf hdr) last0 acc

/-- C8 (amended): for the claimed table family — a header row with any cell
texts plus one data row per subject with "82%" in the last column —
extraction returns exactly one record per row with percentage 82.0 and
subject equal to the first column's text, provided the header-cell texts
are inert for the element scan (stripped, `%`-free and "attendance"-free —
necessary, because th cells are scanned too: an "attendance" header cell
without digits makes the parse raise and a numeric header cell injects an
extra record), each first-column text is a good label (non-empty, stripped,
at most 50 characters, not digit-initial, `%`-free and "attendance"-free),
the labels are distinct and there are at most 20 rows.  The records are
produced by the element scan (Method 1), which fires on the "82%" cells
before the table scan is ever consulted; the unamended claim is false (see
`table82_subject_counterexample`). -/
theorem table82_element_scan (hdr rows : List Str) (hne : rows ≠ [])
    (hnd : rows.Nodup) (hlen : rows.length ≤ 20)
    (hhdr : ∀ h ∈ hdr, InertLabel h)
    (hall : ∀ s ∈ rows, GoodLabel s) :
    method1Recs (docTable82 hdr rows) = .ok (rows.map fun s => ⟨s, 82⟩) ∧
    extractionRecords (docTable82 hdr rows) =
      .ok (some (rows.map fun s => ⟨s, 82⟩)) := by
  have hrows := m1List_rows82 rows hall (tableNode82 hdr rows)
    (hdr.foldl (fun _ h => some h) none) []
  rw [List.nil_append] at hrows
  have etab : m1Node (docTable82 hdr rows) ⟨none, []⟩ (tableNode82 hdr rows) =
      .ok ⟨(if rows = [] then hdr.foldl (fun _ h => some h) none else some "82%".data),
           rows.map (fun s => ⟨s, 82⟩)⟩ := by
    have estep : m1Node (docTable82 hdr rows) ⟨none, []⟩ (tableNode82 hdr rows) =
        match m1Node (tableNode82 hdr rows) ⟨none, []⟩ (headerRowOf hdr) with
        | .error e => .error e
        | .ok st1 => m1List (tableNode82 hdr rows) st1 (rows.map row82) := rfl
    rw [estep, m1Node_headerRow hdr hhdr]
    dsimp only
    exact hrows
  have hm1 : method1Recs (docTable82 hdr rows) = .ok (rows.map fun s => ⟨s, 82⟩) := by
    unfold method1Recs
    rw [show (docTable82 hdr rows).childrenOf = [tableNode82 hdr rows] from rfl]
    rw [show m1List (docTable82 hdr rows) ⟨none, []⟩ [tableNode82 hdr rows] =
        match m1Node (docTable82 hdr rows) ⟨none, []⟩ (tableNode82 hdr rows) with
        | .error e => .error e
        | .ok st1 => m1List (docTable82 hdr rows) st1 [] from rfl]
    rw [etab]
    dsimp only
    rw [m1List_nil]
  refine ⟨hm1, ?_⟩
  have hraw : rawRecs (docTable82 hdr rows) = .ok (rows.map fun s => ⟨s, 82⟩) := by
    unfold rawRecs
    rw [hm1]
    dsimp only
    rw [if_pos (by simpa using hne)]
  unfold extractionRecords
  rw [hraw]
  dsimp only
  rw [if_neg (by simpa using hne)]
  have hinj : Function.Injective (fun s : Str => recKey ⟨s, 82⟩) := by
    intro a b hab
    have hr := recKey_inj hab
    simpa using congrArg Rec.subject hr
  have hnodup : ((rows.map fun s => (⟨s, 82⟩ : Rec)).map recKey).Nodup := by
    rw [List.map_map]
    exact hnd.map hinj
  rw [show dedupKeyed recKey (rows.map fun s => (⟨s, 82⟩ : Rec)) =
      dedupKeyedGo recKey [] (rows.map fun s => (⟨s, 82⟩ : Rec)) from rfl]
  rw [dedupKeyedGo_of_nodup recKey _ [] hnodup (by simp)]
  rw [List.take_of_length_le (by simpa using hlen)]

/-- Witness for C8's theorem at a concrete two-row table with a concrete
inert header. -/
theorem table82_element_scan_witness :
    extractionRecords (docTable82 ["Subject".data, "Pct".data]
        ["Maths".data, "Physics".data]) =
      .ok (some [⟨"Maths".data, 82⟩, ⟨"Physics".data, 82⟩]) :=
  (table82_element_scan ["Subject".data, "Pct".data] ["Maths".data, "Physics".data]
    (by decide) (by decide) (by decide) (by decide) (by decide)).2

/-- C8 counterexample: a two-column table whose first column is "101" (a
digit-initial label) yields the record `(Subject, 82)` — the subject is not
the first column's text, because the record comes from the element scan's
preceding-text inference, which rejects digit-initial strings, not from the
table scan. -/
theorem table82_subject_counterexample :
    extractionRecords (docTable82 ["Subject".data, "Pct".data] ["101".data]) =
        .ok (some [⟨"Subject".data, 82⟩]) ∧
      "Subject".data ≠ "101".data := by
  decide

/-- The header conditions of C8's amended claim are necessary: with the
digit-free header cell "Attendance %" the element scan raises on the header
itself, and with the numeric header cell "90%" the header injects an extra
record `(Subject, 90)` ahead of the rows. -/
theorem table82_header_necessary :
    extractionRecords (docTable82 ["Subject".data, "Attendance %".data] ["Maths".data])
        = .error noneGroupErr ∧
      extractionRecords (docTable82 ["Subject".data, "90%".data] ["Maths".data]) =
        .ok (some [⟨"Subject".data, 90⟩, ⟨"Maths".data, 82⟩]) := by
  decide

end AttendanceBot
